import Mathlib

/-!
Shallow embedding of the POSIX shared-memory core (package shm): the
name-pattern splitter, the hex name randomiser, the syscall-level backend
(shm_open / shm_unlink via the raw kernel trap), the memory mapper, and
the resource-lifecycle operations create_temp / CreateTemp, Open, and the
handle methods Name, Slice, Close, Unlink of syscall_based_mmap.

Go strings are modelled as byte sequences (List Nat); machine integers as
Nat / Int with explicit reductions modulo powers of two at the points
where the source converts. Interaction with the operating system is
modelled by an explicit oracle (structure OS) that fixes the outcome of
every system call, and every operation additionally returns the list of
OS-level actions it performed, in order (List Event). The retry-on-EINTR
loops of the source (shm_open, shm_unlink, ftruncate) are folded into the
oracle: the oracle answers with the first non-EINTR result of the call,
which is the only observable outcome of such a loop.
-/

deriving instance DecidableEq for Except

namespace Shm

/-- A Go string viewed as its byte sequence. -/
abbrev GoStr := List Nat

/-- Bytes of a list of ASCII characters, for writing concrete inputs. -/
def ascii (s : List Char) : GoStr := s.map Char.toNat

/-- The error values the core can return, mirroring which data each Go
error value or message carries. -/
inductive Err
  /-- ErrPatternHasSeparator -/
  | PatternHasSeparator
  /-- ErrPatternTooLong -/
  | PatternTooLong
  /-- the message shm_open() failed with error, wrapping the errno -/
  | ShmOpenFailed (errno : Nat)
  /-- the message shm_unlink() failed with error, wrapping the errno -/
  | ShmUnlinkFailed (errno : Nat)
  /-- os.PathError with Op createtemp and Err ErrExist, carrying the path -/
  | CreateTempExhausted (path : GoStr)
  /-- the message Failed to ftruncate() SHM file (name) to size: (size)
      with error, wrapping the errno -/
  | TruncateMsg (name : GoStr) (size : Nat) (errno : Nat)
  /-- the message truncate failed with error, wrapping an inner error -/
  | TruncateWrapped (e : Err)
  /-- the error returned by unix.Mmap, carrying its errno only -/
  | MmapOsError (errno : Nat)
  /-- the message mmap failed with error, wrapping an inner error -/
  | MmapWrapped (e : Err)
  /-- the error returned by os.Stat, carrying its errno -/
  | StatError (errno : Nat)
  /-- the error returned by os.File.Close, carrying its errno -/
  | CloseError (errno : Nat)
  /-- the error returned by unix.Munmap, carrying its errno -/
  | MunmapError (errno : Nat)
deriving DecidableEq, Repr

/-- The access modes of the memory mapper (source type AccessFlags). -/
inductive AccessFlags
  | READ
  | WRITE
  | COPY
deriving DecidableEq, Repr

/-- Embeds os.IsPathSeparator on POSIX: the byte is the slash byte 47. -/
def is_path_separator (c : Nat) : Bool := c == 47

/-- Embeds strings.LastIndexByte: index of the last occurrence of byte c. -/
def last_index_byte : GoStr → Nat → Option Nat
  | [], _ => none
  | b :: rest, c =>
    match last_index_byte rest c with
    | some j => some (j + 1)
    | none => if b == c then some 0 else none

/-- Embeds the pattern splitter of the name generator (source function
prefix_and_suffix): rejects any pattern holding a path separator, else
splits at the last wildcard byte 42 into the part before and the part
after; with no wildcard the whole pattern is the first part. -/
def split_pattern (pattern : GoStr) : Except Err (GoStr × GoStr) :=
  if pattern.any is_path_separator then .error .PatternHasSeparator
  else
    match last_index_byte pattern 42 with
    | some pos => .ok (pattern.take pos, pattern.drop (pos + 1))
    | none => .ok (pattern, [])

/-- The lowercase hexadecimal digit byte for a value below 16
(bytes of the characters 0-9 then a-f). -/
def hex_digit (d : Nat) : Nat := if d < 10 then 48 + d else 87 + d

/-- Base-16 rendering helper with explicit fuel (the fuel n + 1 passed by
to_hex always suffices since the value shrinks by a factor 16 each step). -/
def to_hex_aux : Nat → Nat → GoStr
  | 0, _ => []
  | fuel + 1, n =>
    if n < 16 then [hex_digit n]
    else to_hex_aux fuel (n / 16) ++ [hex_digit (n % 16)]

/-- Embeds strconv.FormatUint(n, 16): lowercase hexadecimal, no padding. -/
def to_hex (n : Nat) : GoStr := to_hex_aux (n + 1) n

/-- Embeds next_random for a given draw of rand.Uint32: the drawn 32-bit
value rendered as lowercase hexadecimal. -/
def next_random (draw : Nat) : GoStr := to_hex (draw % 2 ^ 32)

/-- Go conversion int64(u) of a uint64 value: reinterpretation in
two-s complement. -/
def int64_of_uint64 (n : Nat) : Int :=
  if n % 2 ^ 64 < 2 ^ 63 then ((n % 2 ^ 64 : Nat) : Int)
  else ((n % 2 ^ 64 : Nat) : Int) - 2 ^ 64

/-- Go conversion uint64(i) of an int64 value: reduction modulo 2^64. -/
def uint64_of_int64 (i : Int) : Nat := (i % (2 ^ 64 : Int)).toNat

/-- The two shared-memory kernel traps used by this backend
(unix.SYS_SHM_OPEN and unix.SYS_SHM_UNLINK, distinct trap numbers). -/
inductive SysNum
  | SHM_OPEN
  | SHM_UNLINK
deriving DecidableEq, Repr

/-- One OS-level action performed by the core, recorded in order. -/
inductive Event
  /-- a raw unix.Syscall of the given shared-memory trap on a name -/
  | sys (num : SysNum) (name : GoStr) (flags perm : Nat)
  /-- unix.Ftruncate of a descriptor to a size -/
  | ftruncate (fd : Nat) (sz : Int)
  /-- unix.Mmap of a descriptor: offset, length, protection, flags -/
  | mmap_call (fd : Nat) (off sz : Int) (prot flags : Nat)
  /-- closing a descriptor (os.File.Close) -/
  | close (fd : Nat)
  /-- os.Remove of a path name -/
  | remove (name : GoStr)
  /-- unix.Munmap of a region -/
  | munmap_call (region : List Nat)
  /-- os.Stat of a path name -/
  | stat (name : GoStr)
deriving DecidableEq, Repr

/-- The EEXIST errno value (17 on the target platforms). -/
def EEXIST : Nat := 17

/-- The ENOTEMPTY errno value (66 on the target platforms). -/
def ENOTEMPTY : Nat := 66

/-- Platform open flag values (darwin): os.O_RDONLY. -/
def O_RDONLY : Nat := 0

/-- Platform open flag values (darwin): os.O_RDWR. -/
def O_RDWR : Nat := 2

/-- Platform open flag values (darwin): os.O_CREATE. -/
def O_CREATE : Nat := 512

/-- Platform open flag values (darwin): os.O_EXCL. -/
def O_EXCL : Nat := 2048

/-- Mapping protection bit unix.PROT_READ. -/
def PROT_READ : Nat := 1

/-- Mapping protection bit unix.PROT_WRITE. -/
def PROT_WRITE : Nat := 2

/-- Mapping flag unix.MAP_SHARED. -/
def MAP_SHARED : Nat := 1

/-- Mapping flag unix.MAP_PRIVATE. -/
def MAP_PRIVATE : Nat := 2

/-- The oracle fixing the outcome of every OS interaction. Each field
answers one kind of call as a function of its arguments; for the calls the
source wraps in a retry-on-EINTR loop, the answer is the first non-EINTR
result, the only observable outcome of the loop. -/
structure OS where
  /-- errno of a raw shared-memory trap (0 on success) -/
  sys_errno : SysNum → GoStr → Nat → Nat → Nat
  /-- descriptor returned by a successful raw shared-memory trap -/
  sys_fd : SysNum → GoStr → Nat → Nat → Nat
  /-- errno of unix.Ftruncate (0 on success) -/
  ftruncate_errno : Nat → Int → Nat
  /-- result of unix.Mmap: the mapped bytes, or the errno on failure -/
  mmap_res : Nat → Int → Int → Nat → Nat → Except Nat (List Nat)
  /-- errno of unix.Munmap (0 on success) -/
  munmap_errno : List Nat → Nat
  /-- result of os.Stat on a name: its Size, or the errno on failure -/
  stat_size : GoStr → Except Nat Int
  /-- errno of os.File.Close (0 on success) -/
  close_errno : Nat → Nat
  /-- errno of os.Remove (0 on success) -/
  remove_errno : GoStr → Nat

/-- An open file handle (os.File): its descriptor and its name. -/
structure File where
  fd : Nat
  name : GoStr
deriving DecidableEq, Repr

/-- Embeds shm_open: issues the SYS_SHM_OPEN trap with the given flags and
permissions (retrying on EINTR, folded into the oracle); on a nonzero
errno wraps it, otherwise wraps the descriptor as an os.File of that
name (os.NewFile(fd, name)). -/
def shm_open (os : OS) (name : GoStr) (flags perm : Nat) :
    Except Err File × List Event :=
  let errno := os.sys_errno .SHM_OPEN name flags perm
  if errno == 0 then
    (.ok ⟨os.sys_fd .SHM_OPEN name flags perm, name⟩, [.sys .SHM_OPEN name flags perm])
  else
    (.error (.ShmOpenFailed errno), [.sys .SHM_OPEN name flags perm])

/-- Embeds shm_unlink. The source issues
unix.Syscall(unix.SYS_SHM_OPEN, bname, 0, 0) — the SYS_SHM_OPEN trap with
flag and permission arguments 0, not the SYS_SHM_UNLINK trap — retrying on
EINTR, and wraps a nonzero errno in the shm_unlink() failed message. -/
def shm_unlink (os : OS) (name : GoStr) : Option Err × List Event :=
  let errno := os.sys_errno .SHM_OPEN name 0 0
  (if errno == 0 then none else some (.ShmUnlinkFailed errno),
   [.sys .SHM_OPEN name 0 0])

/-- Embeds the memory mapper (source function mmap): flags start as
MAP_SHARED and protection as PROT_READ; COPY adds PROT_WRITE and switches
the flags to MAP_PRIVATE, WRITE adds PROT_WRITE; then unix.Mmap is called
with exactly the given descriptor, offset, and length. -/
def mmap (os : OS) (sz : Int) (access : AccessFlags) (fd : Nat) (off : Int) :
    Except Err (List Nat) × List Event :=
  let flags := match access with
    | .COPY => MAP_PRIVATE
    | _ => MAP_SHARED
  let prot := match access with
    | .COPY => PROT_READ ||| PROT_WRITE
    | .WRITE => PROT_READ ||| PROT_WRITE
    | .READ => PROT_READ
  match os.mmap_res fd off sz prot flags with
  | .ok b => (.ok b, [.mmap_call fd off sz prot flags])
  | .error e => (.error (.MmapOsError e), [.mmap_call fd off sz prot flags])

/-- Embeds munmap: unix.Munmap of the region. -/
def munmap (os : OS) (s : List Nat) : Option Err × List Event :=
  (if os.munmap_errno s == 0 then none else some (.MunmapError (os.munmap_errno s)),
   [.munmap_call s])

/-- Embeds truncate_or_unlink: unix.Ftruncate of the descriptor to
int64(size), retrying on EINTR (folded into the oracle); on failure it
closes the handle, issues os.Remove on the handle name (both results
discarded), and returns the message naming the file and the target size
and wrapping the errno. -/
def truncate_or_unlink (os : OS) (ans : File) (size : Nat) :
    Option Err × List Event :=
  let errno := os.ftruncate_errno ans.fd (int64_of_uint64 size)
  if errno == 0 then (none, [.ftruncate ans.fd (int64_of_uint64 size)])
  else
    (some (.TruncateMsg ans.name size errno),
     [.ftruncate ans.fd (int64_of_uint64 size), .close ans.fd, .remove ans.name])

/-- The handle type syscall_based_mmap: the backing os.File, the mapped
region (a Go byte slice, none modelling nil), and the unlinked flag. -/
structure SyscallBasedMMap where
  f : File
  region : Option (List Nat)
  unlinked : Bool
deriving DecidableEq, Repr

/-- Embeds syscall_mmap: when asked to truncate, first runs
truncate_or_unlink and on its failure returns the truncate failed message
wrapping the inner error; then calls the mapper with int(size), the given
access, the descriptor of f, and offset 0 (the call site passes the
constant false between access and the descriptor, an argument the mapper
definition does not declare); on mapper failure closes f, issues os.Remove
on its name, and returns the mmap failed message wrapping the inner error;
on success wraps f and the region into a handle. -/
def syscall_mmap (os : OS) (f : File) (size : Nat) (access : AccessFlags)
    (truncate : Bool) : Except Err SyscallBasedMMap × List Event :=
  let t := if truncate then truncate_or_unlink os f size else (none, [])
  match t with
  | (some e, evs) => (.error (.TruncateWrapped e), evs)
  | (none, evs) =>
    match mmap os (int64_of_uint64 size) access f.fd 0 with
    | (.ok region, evs2) => (.ok ⟨f, some region, false⟩, evs ++ evs2)
    | (.error e, evs2) =>
      (.error (.MmapWrapped e), evs ++ evs2 ++ [.close f.fd, .remove f.name])

/-- Embeds syscall_based_mmap.Name. -/
def SyscallBasedMMap.Name (self : SyscallBasedMMap) : GoStr := self.f.name

/-- Embeds syscall_based_mmap.Slice: returns the region reference. -/
def SyscallBasedMMap.Slice (self : SyscallBasedMMap) : Option (List Nat) :=
  self.region

/-- Embeds syscall_based_mmap.Close: closes the backing file, nulls the
region reference, and returns the close error. The updated handle is
returned first, then the error, then the recorded actions. -/
def SyscallBasedMMap.Close (self : SyscallBasedMMap) (os : OS) :
    SyscallBasedMMap × Option Err × List Event :=
  let errno := os.close_errno self.f.fd
  ({ self with region := none },
   if errno == 0 then none else some (.CloseError errno),
   [.close self.f.fd])

/-- Embeds syscall_based_mmap.Unlink: a no-op returning nil when the
unlinked flag is already set; otherwise sets the flag and calls shm_unlink
on the handle name. -/
def SyscallBasedMMap.Unlink (self : SyscallBasedMMap) (os : OS) :
    SyscallBasedMMap × Option Err × List Event :=
  if self.unlinked then (self, none, [])
  else
    let r := shm_unlink os self.Name
    ({ self with unlinked := true }, r.1, r.2)

/-- Embeds the check create_temp applies to the error of shm_open:
errors.Is(err, fs.ErrExist) or errors.Unwrap(err) == unix.EEXIST. The
error wraps a unix.Errno, and Errno.Is maps fs.ErrExist to the errno
being EEXIST or ENOTEMPTY, while the unwrap comparison adds only EEXIST
again; so the check holds exactly when the wrapped errno is EEXIST or
ENOTEMPTY. -/
def is_exist_err : Err → Bool
  | .ShmOpenFailed e => e == EEXIST || e == ENOTEMPTY
  | _ => false

/-- Embeds the creation loop of create_temp. Each round builds the
candidate name from the prefix, one random draw rendered in hexadecimal,
and the suffix; a candidate longer than the platform maximum aborts with
ErrPatternTooLong; shm_open is attempted with O_EXCL, O_CREATE, O_RDWR and
permission 0600; an already-exists failure retries with the next draw
until the attempt counter would exceed 10000, when the loop fails with the
createtemp path error on the pattern rendered prefix-wildcard-suffix. The
source counts attempts up in try and tests try greater than 10000 after
incrementing; here remaining counts the same bound down, remaining =
10000 - try, so that test is remaining = 0. Any other shm_open failure,
and success, end the loop at once. k indexes the random draws. -/
def create_temp_loop (os : OS) (randoms : Nat → Nat) (nameMax : Nat)
    (pre suf : GoStr) : Nat → Nat → Except Err File × List Event
  | k, remaining =>
    let name := pre ++ next_random (randoms k) ++ suf
    if name.length > nameMax then (.error .PatternTooLong, [])
    else
      match shm_open os name (O_EXCL ||| O_CREATE ||| O_RDWR) 384 with
      | (.error e, evs) =>
        if is_exist_err e then
          match remaining with
          | 0 => (.error (.CreateTempExhausted (pre ++ [42] ++ suf)), evs)
          | r + 1 =>
            let rest := create_temp_loop os randoms nameMax pre suf (k + 1) r
            (rest.1, evs ++ rest.2)
        else (.error e, evs)
      | (.ok f, evs) => (.ok f, evs)

/-- Embeds the conditional prefix adjustment of create_temp: when the
platform constant SHM_REQUIRED_PREFIX is nonempty and the pattern does not
already start with it (strings.HasPrefix), it is prepended to the split
prefix before candidate names are formed. -/
def adjusted_pre (reqPre pattern pre0 : GoStr) : GoStr :=
  if (!reqPre.isEmpty && !(reqPre.isPrefixOf pattern)) = true
  then reqPre ++ pre0 else pre0

/-- The access constant the create_temp call site passes to syscall_mmap
for the newly created object (named RDWR there): the shared read-write
access mode of the mapper. -/
def RDWR : AccessFlags := AccessFlags.WRITE

/-- Embeds create_temp, parameterised by the platform constants
SHM_NAME_MAX (nameMax) and SHM_REQUIRED_PREFIX (reqPre) supplied by the
platform backend, and by the stream of rand.Uint32 draws. It splits the
pattern, prepends the required platform name start to the prefix when it
is nonempty and the pattern does not already start with it, runs the
creation loop from try = 0 (remaining = 10000), and on success maps the
created object read-write with truncation to the requested size. -/
def create_temp (os : OS) (randoms : Nat → Nat) (nameMax : Nat)
    (reqPre : GoStr) (pattern : GoStr) (size : Nat) :
    Except Err SyscallBasedMMap × List Event :=
  match split_pattern pattern with
  | .error e => (.error e, [])
  | .ok (pre0, suf) =>
    match create_temp_loop os randoms nameMax (adjusted_pre reqPre pattern pre0) suf 0 10000 with
    | (.error e, evs) => (.error e, evs)
    | (.ok f, evs) =>
      let r := syscall_mmap os f size RDWR true
      (r.1, evs ++ r.2)

/-- Embeds the public CreateTemp, which forwards to create_temp. -/
def CreateTemp (os : OS) (randoms : Nat → Nat) (nameMax : Nat)
    (reqPre : GoStr) (pattern : GoStr) (size : Nat) :
    Except Err SyscallBasedMMap × List Event :=
  create_temp os randoms nameMax reqPre pattern size

/-- Embeds Open: shm_open of the exact name with os.O_RDONLY and
permission 0; on success os.Stat of the name, and on stat failure the
just-opened handle is closed (result discarded) before the stat error is
returned; otherwise syscall_mmap of the opened file with
uint64(s.Size()), READ access, and no truncation. -/
def Open (os : OS) (name : GoStr) : Except Err SyscallBasedMMap × List Event :=
  match shm_open os name O_RDONLY 0 with
  | (.error e, evs) => (.error e, evs)
  | (.ok ans, evs) =>
    match os.stat_size name with
    | .error errno => (.error (.StatError errno), evs ++ [.stat name, .close ans.fd])
    | .ok sz =>
      let r := syscall_mmap os ans (uint64_of_int64 sz) AccessFlags.READ false
      (r.1, evs ++ [.stat name] ++ r.2)

/-! ## Predicates on recorded actions, and concrete oracles -/

/-- Recognises the shared-memory unlink kernel trap among recorded
actions: per the backend contract this trap, and only it, removes a name
from the kernel shared-memory namespace. -/
def is_shm_unlink_trap : Event → Bool
  | .sys .SHM_UNLINK _ _ _ => true
  | _ => false

/-- Recognises an unmapping action (unix.Munmap) among recorded actions. -/
def is_munmap_event : Event → Bool
  | .munmap_call _ => true
  | _ => false

/-- Recognises an exclusive-creation attempt: the shared-memory open trap
with the O_EXCL, O_CREATE, O_RDWR flags and permission 0600 used by the
creation loop. -/
def is_exclusive_create : Event → Bool
  | .sys .SHM_OPEN _ flags perm =>
      flags == (O_EXCL ||| O_CREATE ||| O_RDWR) && perm == 384
  | _ => false

/-- The largest length a generated candidate name can take for a pattern:
the adjusted prefix, the longest hexadecimal rendering of a 32-bit draw
(8 bytes), and the suffix. -/
def max_candidate_len (reqPre pattern pre0 suf : GoStr) : Nat :=
  (adjusted_pre reqPre pattern pre0).length + 8 + suf.length

/-- An oracle on which every OS call succeeds; descriptors are 3, mapped
regions are empty, stat reports size 64. -/
def os0 : OS where
  sys_errno := fun _ _ _ _ => 0
  sys_fd := fun _ _ _ _ => 3
  ftruncate_errno := fun _ _ => 0
  mmap_res := fun _ _ _ _ _ => .ok []
  munmap_errno := fun _ => 0
  stat_size := fun _ => .ok 64
  close_errno := fun _ => 0
  remove_errno := fun _ => 0

/-- An oracle on which every raw shared-memory trap fails with EEXIST. -/
def os_exist : OS := { os0 with sys_errno := fun _ _ _ _ => EEXIST }

/-- An oracle on which unix.Ftruncate fails with errno 22 (EINVAL). -/
def os_truncfail : OS := { os0 with ftruncate_errno := fun _ _ => 22 }

/-- An oracle on which unix.Mmap fails with errno 12 (ENOMEM). -/
def os_mmapfail : OS := { os0 with mmap_res := fun _ _ _ _ _ => .error 12 }

/-- An oracle on which os.Stat fails with errno 2 (ENOENT). -/
def os_statfail : OS := { os0 with stat_size := fun _ => .error 2 }

/-- An oracle on which the raw shared-memory trap fails with errno 13
(EACCES), an error other than EEXIST. -/
def os_openfail : OS := { os0 with sys_errno := fun _ _ _ _ => 13 }

/-! ## Helper lemmas -/

/-- A hexadecimal rendering is never empty. -/
theorem to_hex_length_pos (n : Nat) : 1 ≤ (to_hex n).length := by
  unfold to_hex to_hex_aux
  split <;> simp

/-- Under an oracle answering every trap with EEXIST, a creation loop
whose candidates all fit the length bound runs through all its remaining
attempts and fails with the exhaustion path error; its recorded actions
are remaining + 1 exclusive-creation attempts. -/
theorem loop_all_exist (os : OS) (rnd : Nat → Nat) (nameMax : Nat)
    (pre suf : GoStr)
    (hlen : ∀ k, (pre ++ next_random (rnd k) ++ suf).length ≤ nameMax)
    (hex : ∀ name flags perm, os.sys_errno .SHM_OPEN name flags perm = EEXIST) :
    ∀ remaining k,
      (create_temp_loop os rnd nameMax pre suf k remaining).1 =
        .error (.CreateTempExhausted (pre ++ [42] ++ suf)) ∧
      (create_temp_loop os rnd nameMax pre suf k remaining).2.length =
        remaining + 1 ∧
      (create_temp_loop os rnd nameMax pre suf k remaining).2.all
        is_exclusive_create = true := by
  intro remaining
  induction remaining with
  | zero =>
    intro k
    rw [create_temp_loop]
    rw [if_neg (by have := hlen k; omega)]
    simp [shm_open, hex, EEXIST, is_exist_err, is_exclusive_create]
  | succ r ih =>
    intro k
    rw [create_temp_loop]
    rw [if_neg (by have := hlen k; omega)]
    simp only [shm_open, hex, EEXIST]
    simp only [is_exist_err, EEXIST]
    have h1 := (ih (k + 1)).1
    have h2 := (ih (k + 1)).2.1
    have h3 := (ih (k + 1)).2.2
    simp_all [is_exclusive_create]

/-- When the very first candidate fits the length bound and its exclusive
creation succeeds, the creation loop ends at once with the opened file and
a single recorded creation attempt. -/
theorem loop_first_success (os : OS) (rnd : Nat → Nat) (nameMax : Nat)
    (pre suf : GoStr)
    (hlen : (pre ++ next_random (rnd 0) ++ suf).length ≤ nameMax)
    (h0 : os.sys_errno .SHM_OPEN (pre ++ next_random (rnd 0) ++ suf)
      (O_EXCL ||| O_CREATE ||| O_RDWR) 384 = 0) (remaining : Nat) :
    create_temp_loop os rnd nameMax pre suf 0 remaining =
      (.ok ⟨os.sys_fd .SHM_OPEN (pre ++ next_random (rnd 0) ++ suf)
              (O_EXCL ||| O_CREATE ||| O_RDWR) 384,
            pre ++ next_random (rnd 0) ++ suf⟩,
       [.sys .SHM_OPEN (pre ++ next_random (rnd 0) ++ suf)
          (O_EXCL ||| O_CREATE ||| O_RDWR) 384]) := by
  rw [create_temp_loop, if_neg (by omega)]
  simp only [shm_open]
  rw [h0]
  simp

/-- When the very first candidate fits the length bound and its exclusive
creation fails with an errno that is not 0 and that the already-exists
check does not cover (neither EEXIST nor ENOTEMPTY), the creation loop
fails at once with the wrapped shm_open error and a single recorded
creation attempt. -/
theorem loop_first_other_error (os : OS) (rnd : Nat → Nat) (nameMax : Nat)
    (pre suf : GoStr) (e : Nat)
    (hlen : (pre ++ next_random (rnd 0) ++ suf).length ≤ nameMax)
    (h0 : os.sys_errno .SHM_OPEN (pre ++ next_random (rnd 0) ++ suf)
      (O_EXCL ||| O_CREATE ||| O_RDWR) 384 = e)
    (hne0 : e ≠ 0) (hnex : e ≠ EEXIST) (hnen : e ≠ ENOTEMPTY)
    (remaining : Nat) :
    create_temp_loop os rnd nameMax pre suf 0 remaining =
      (.error (.ShmOpenFailed e),
       [.sys .SHM_OPEN (pre ++ next_random (rnd 0) ++ suf)
          (O_EXCL ||| O_CREATE ||| O_RDWR) 384]) := by
  rw [create_temp_loop, if_neg (by omega)]
  simp only [shm_open]
  rw [h0]
  simp [hne0, is_exist_err, hnex, hnen]

/-- The actions of truncate_or_unlink never include an unmapping. -/
theorem truncate_or_unlink_no_munmap (os : OS) (f : File) (size : Nat) :
    ((truncate_or_unlink os f size).2.any is_munmap_event) = false := by
  unfold truncate_or_unlink
  by_cases h : (os.ftruncate_errno f.fd (int64_of_uint64 size) == 0) = true <;>
    simp [h, is_munmap_event]

/-- The actions of the mapper never include an unmapping. -/
theorem mmap_no_munmap (os : OS) (sz : Int) (a : AccessFlags) (fd : Nat)
    (off : Int) : ((mmap os sz a fd off).2.any is_munmap_event) = false := by
  unfold mmap
  cases a <;> dsimp only <;> split <;> simp [is_munmap_event]

/-- The actions of syscall_mmap never include an unmapping. -/
theorem syscall_mmap_no_munmap (os : OS) (f : File) (size : Nat)
    (access : AccessFlags) (t : Bool) :
    ((syscall_mmap os f size access t).2.any is_munmap_event) = false := by
  unfold syscall_mmap
  have hm := mmap_no_munmap os (int64_of_uint64 size) access f.fd 0
  cases t with
  | false =>
    rcases hmr : mmap os (int64_of_uint64 size) access f.fd 0 with ⟨r, evs2⟩
    rw [hmr] at hm
    cases r <;> simp_all [is_munmap_event]
  | true =>
    have htr := truncate_or_unlink_no_munmap os f size
    rcases h1 : truncate_or_unlink os f size with ⟨o, evs⟩
    rw [h1] at htr
    cases o with
    | some e => simp_all
    | none =>
      rcases hmr : mmap os (int64_of_uint64 size) access f.fd 0 with ⟨r, evs2⟩
      rw [hmr] at hm
      cases r <;> simp_all [is_munmap_event]

/-- The single action shm_open records is its raw trap. -/
theorem shm_open_events (os : OS) (name : GoStr) (flags perm : Nat) :
    (shm_open os name flags perm).2 = [.sys .SHM_OPEN name flags perm] := by
  by_cases h : (os.sys_errno .SHM_OPEN name flags perm == 0) = true <;>
    simp [shm_open, h]

/-- The actions of the creation loop never include an unmapping. -/
theorem loop_no_munmap (os : OS) (rnd : Nat → Nat) (nameMax : Nat)
    (pre suf : GoStr) :
    ∀ remaining k,
      ((create_temp_loop os rnd nameMax pre suf k remaining).2.any
        is_munmap_event) = false := by
  intro remaining
  induction remaining with
  | zero =>
    intro k
    rw [create_temp_loop]
    by_cases hl : (pre ++ next_random (rnd k) ++ suf).length > nameMax
    · rw [if_pos hl]; rfl
    · rw [if_neg hl]
      rcases hso : shm_open os (pre ++ next_random (rnd k) ++ suf)
          (O_EXCL ||| O_CREATE ||| O_RDWR) 384 with ⟨r, evs⟩
      have hevs : evs = [.sys .SHM_OPEN (pre ++ next_random (rnd k) ++ suf)
          (O_EXCL ||| O_CREATE ||| O_RDWR) 384] :=
        (congrArg Prod.snd hso).symm.trans
          (shm_open_events os (pre ++ next_random (rnd k) ++ suf)
            (O_EXCL ||| O_CREATE ||| O_RDWR) 384)
      cases r with
      | error e =>
        by_cases hee : is_exist_err e = true <;>
          simp [hee, hevs, is_munmap_event]
      | ok f => simp [hevs, is_munmap_event]
  | succ r ih =>
    intro k
    rw [create_temp_loop]
    by_cases hl : (pre ++ next_random (rnd k) ++ suf).length > nameMax
    · rw [if_pos hl]; rfl
    · rw [if_neg hl]
      rcases hso : shm_open os (pre ++ next_random (rnd k) ++ suf)
          (O_EXCL ||| O_CREATE ||| O_RDWR) 384 with ⟨re, evs⟩
      have hevs : evs = [.sys .SHM_OPEN (pre ++ next_random (rnd k) ++ suf)
          (O_EXCL ||| O_CREATE ||| O_RDWR) 384] :=
        (congrArg Prod.snd hso).symm.trans
          (shm_open_events os (pre ++ next_random (rnd k) ++ suf)
            (O_EXCL ||| O_CREATE ||| O_RDWR) 384)
      cases re with
      | error e =>
        by_cases hee : is_exist_err e = true <;>
          simp [hee, hevs, is_munmap_event, List.any_append, ih (k + 1)]
      | ok f => simp [hevs, is_munmap_event]

/-! ## Claim theorems -/

/-- C1: evaluation of the code at the failing input. On a fresh handle
whose unlinked flag is not set, Unlink records exactly one raw trap, and
that trap is SYS_SHM_OPEN with flag and permission arguments 0 — the
shared-memory open trap, not the SYS_SHM_UNLINK removal trap, which is
never issued. This contradicts the backend contract that unlink(name)
removes the name from the kernel namespace. -/
theorem unlink_issues_shm_open_trap :
    ((⟨⟨3, ascii (['/', 'x'])⟩, some [], false⟩ : SyscallBasedMMap).Unlink
        os0).2.2 =
      [.sys .SHM_OPEN (ascii (['/', 'x'])) 0 0] ∧
    (((⟨⟨3, ascii (['/', 'x'])⟩, some [], false⟩ : SyscallBasedMMap).Unlink
        os0).2.2.any is_shm_unlink_trap) = false := by
  constructor <;> rfl

/-- C6: for every pattern holding a path-separator byte, create_temp
fails with the PatternHasSeparator error and records no OS-level action
at all. -/
theorem create_temp_separator_no_side_effect
    (os : OS) (rnd : Nat → Nat) (nameMax : Nat) (reqPre pattern : GoStr)
    (size : Nat) (hsep : pattern.any is_path_separator = true) :
    create_temp os rnd nameMax reqPre pattern size =
      (.error .PatternHasSeparator, []) := by
  unfold create_temp split_pattern
  rw [hsep]
  rfl

/-- Witness for C6 at the concrete pattern a/b. -/
theorem create_temp_separator_no_side_effect_witness :
    (ascii (['a', '/', 'b'])).any is_path_separator = true ∧
    create_temp os0 (fun _ => 0) 30 [] (ascii (['a', '/', 'b'])) 64 =
      (.error .PatternHasSeparator, []) :=
  ⟨by decide,
   create_temp_separator_no_side_effect os0 (fun _ => 0) 30 []
     (ascii (['a', '/', 'b'])) 64 (by decide)⟩

/-- C7: Unlink is idempotent. On a handle whose unlinked flag is not yet
set, the first call records exactly the one syscall shm_unlink issues for
the handle name and sets the flag; the second call records no action,
returns no error, and leaves the handle unchanged; and when the syscall
reports success the first call also returns no error. -/
theorem unlink_idempotent (os : OS) (m : SyscallBasedMMap)
    (hm : m.unlinked = false) :
    (m.Unlink os).2.2 = [.sys .SHM_OPEN m.Name 0 0] ∧
    (m.Unlink os).1.unlinked = true ∧
    ((m.Unlink os).1.Unlink os).2.2 = [] ∧
    ((m.Unlink os).1.Unlink os).2.1 = none ∧
    ((m.Unlink os).1.Unlink os).1 = (m.Unlink os).1 ∧
    (os.sys_errno .SHM_OPEN m.Name 0 0 = 0 → (m.Unlink os).2.1 = none) := by
  refine ⟨?_, ?_, ?_, ?_, ?_, ?_⟩ <;>
    simp [SyscallBasedMMap.Unlink, shm_unlink, hm]

/-- Witness for C7 at a concrete handle and the all-success oracle. -/
theorem unlink_idempotent_witness :
    ((⟨⟨4, ascii (['/', 'y'])⟩, some [], false⟩ : SyscallBasedMMap).Unlink
        os0).2.1 = none ∧
    (((⟨⟨4, ascii (['/', 'y'])⟩, some [], false⟩ : SyscallBasedMMap).Unlink
        os0).1.Unlink os0).2.1 = none ∧
    (((⟨⟨4, ascii (['/', 'y'])⟩, some [], false⟩ : SyscallBasedMMap).Unlink
        os0).1.Unlink os0).2.2 = [] := by
  have h := unlink_idempotent os0 ⟨⟨4, ascii (['/', 'y'])⟩, some [], false⟩ rfl
  exact ⟨h.2.2.2.2.2 rfl, h.2.2.2.1, h.2.2.1⟩

/-- C8: Close nulls the region reference of the handle, so Slice on the
resulting handle returns the nil view, and it stays nil across any
further Unlink or Close of that handle. -/
theorem slice_nil_after_close (os : OS) (m : SyscallBasedMMap) :
    ((m.Close os).1).Slice = none ∧
    ((m.Close os).1).region = none ∧
    (((m.Close os).1.Unlink os).1).Slice = none ∧
    (((m.Close os).1.Close os).1).Slice = none := by
  refine ⟨rfl, rfl, ?_, rfl⟩
  by_cases hm : m.unlinked <;>
    simp [SyscallBasedMMap.Close, SyscallBasedMMap.Unlink,
      SyscallBasedMMap.Slice, hm]

/-- C9: the mapper translates READ to a shared read-only request, WRITE to
a shared read-write request, and COPY to a private (copy-on-write)
read-write request, always passing the caller's exact length; and
syscall_mmap always requests offset 0 with length int64(size). -/
theorem mmap_access_translation (os : OS) (sz : Int) (fd : Nat) (off : Int)
    (f : File) (size : Nat) :
    (mmap os sz .READ fd off).2 =
      [.mmap_call fd off sz PROT_READ MAP_SHARED] ∧
    (mmap os sz .WRITE fd off).2 =
      [.mmap_call fd off sz (PROT_READ ||| PROT_WRITE) MAP_SHARED] ∧
    (mmap os sz .COPY fd off).2 =
      [.mmap_call fd off sz (PROT_READ ||| PROT_WRITE) MAP_PRIVATE] ∧
    (syscall_mmap os f size .READ false).2.head? =
      some (.mmap_call f.fd 0 (int64_of_uint64 size) PROT_READ MAP_SHARED) ∧
    (syscall_mmap os f size .WRITE false).2.head? =
      some (.mmap_call f.fd 0 (int64_of_uint64 size)
        (PROT_READ ||| PROT_WRITE) MAP_SHARED) ∧
    (syscall_mmap os f size .COPY false).2.head? =
      some (.mmap_call f.fd 0 (int64_of_uint64 size)
        (PROT_READ ||| PROT_WRITE) MAP_PRIVATE) := by
  refine ⟨?_, ?_, ?_, ?_, ?_, ?_⟩
  case refine_1 | refine_2 | refine_3 =>
    unfold mmap
    dsimp only
    split <;> rfl
  case refine_4 =>
    unfold syscall_mmap mmap
    dsimp only
    rcases h : os.mmap_res f.fd 0 (int64_of_uint64 size) PROT_READ MAP_SHARED
        with e | b <;> simp [h]
  case refine_5 =>
    unfold syscall_mmap mmap
    dsimp only
    rcases h : os.mmap_res f.fd 0 (int64_of_uint64 size)
        (PROT_READ ||| PROT_WRITE) MAP_SHARED with e | b <;> simp [h]
  case refine_6 =>
    unfold syscall_mmap mmap
    dsimp only
    rcases h : os.mmap_res f.fd 0 (int64_of_uint64 size)
        (PROT_READ ||| PROT_WRITE) MAP_PRIVATE with e | b <;> simp [h]

/-- C10: Close records only the closing of the underlying descriptor and
nulls the region reference; no handle operation, nor create_temp or Open,
ever records an unmapping, so the mapping established at creation is never
released by this core. -/
theorem close_never_munmaps (os : OS) (m : SyscallBasedMMap)
    (rnd : Nat → Nat) (nameMax : Nat) (reqPre pattern name : GoStr)
    (size : Nat) :
    (m.Close os).2.2 = [.close m.f.fd] ∧
    (m.Close os).1.region = none ∧
    ((m.Unlink os).2.2.any is_munmap_event) = false ∧
    ((create_temp os rnd nameMax reqPre pattern size).2.any
      is_munmap_event) = false ∧
    ((Open os name).2.any is_munmap_event) = false := by
  refine ⟨rfl, rfl, ?_, ?_, ?_⟩
  · by_cases hm : m.unlinked <;>
      simp [SyscallBasedMMap.Unlink, shm_unlink, hm, is_munmap_event]
  · unfold create_temp
    rcases hsp : split_pattern pattern with e | ⟨pre0, suf⟩
    · rfl
    · dsimp only
      have hev := loop_no_munmap os rnd nameMax
        (adjusted_pre reqPre pattern pre0) suf 10000 0
      generalize hlp : create_temp_loop os rnd nameMax
          (adjusted_pre reqPre pattern pre0) suf 0 10000 = p
      rw [hlp] at hev
      rcases p with ⟨r, evs⟩
      cases r with
      | error e => simpa using hev
      | ok f =>
        have hsm := syscall_mmap_no_munmap os f size RDWR true
        generalize hsr : syscall_mmap os f size RDWR true = q
        rw [hsr] at hsm
        rcases q with ⟨r2, evs2⟩
        simp_all [List.any_append]
  · unfold Open
    have hevs := shm_open_events os name O_RDONLY 0
    generalize hso : shm_open os name O_RDONLY 0 = p
    rw [hso] at hevs
    rcases p with ⟨r, evs⟩
    simp only at hevs
    cases r with
    | error e => simp [hevs, is_munmap_event]
    | ok ans =>
      rcases hst : os.stat_size name with e2 | sz
      · simp [hevs, is_munmap_event]
      · have hsm := syscall_mmap_no_munmap os ans (uint64_of_int64 sz)
          AccessFlags.READ false
        generalize hsr : syscall_mmap os ans (uint64_of_int64 sz)
          AccessFlags.READ false = q
        rw [hsr] at hsm
        rcases q with ⟨r2, evs2⟩
        simp_all [List.any_append, is_munmap_event]

/-- C3 counterexample: a pattern whose largest possible candidate name
(prefix + 8 hex bytes + suffix, here 11 bytes) exceeds the platform
maximum (here 5), for which create_temp nevertheless succeeds when the
drawn random value renders short (draw 0 renders as the single byte 0,
giving the 4-byte candidate ab0c): the claim that such patterns always
fail with PatternTooLong regardless of the draws is false. -/
theorem pattern_too_long_maximal_counterexample :
    5 < max_candidate_len [] (ascii (['a', 'b', '*', 'c']))
      (ascii (['a', 'b'])) (ascii (['c'])) ∧
    split_pattern (ascii (['a', 'b', '*', 'c'])) =
      .ok (ascii (['a', 'b']), ascii (['c'])) ∧
    (create_temp os0 (fun _ => 0) 5 [] (ascii (['a', 'b', '*', 'c'])) 64).1 =
      .ok ⟨⟨3, ascii (['a', 'b', '0', 'c'])⟩, some [], false⟩ := by
  refine ⟨by decide, by decide, by decide⟩

/-- C3 as amended: for every pattern without separator whose smallest
possible candidate name — adjusted prefix, shortest hex rendering
(1 byte), suffix — already exceeds the platform maximum, create_temp
fails with PatternTooLong before any creation attempt (no recorded
action), regardless of the random draws. -/
theorem pattern_too_long_minimal (os : OS) (rnd : Nat → Nat) (nameMax : Nat)
    (reqPre pattern : GoStr) (size : Nat) (pre0 suf : GoStr)
    (hsplit : split_pattern pattern = .ok (pre0, suf))
    (hlen : nameMax <
      (adjusted_pre reqPre pattern pre0).length + 1 + suf.length) :
    create_temp os rnd nameMax reqPre pattern size =
      (.error .PatternTooLong, []) := by
  have hc : (adjusted_pre reqPre pattern pre0 ++ next_random (rnd 0) ++
      suf).length > nameMax := by
    have h1 := to_hex_length_pos (rnd 0 % 2 ^ 32)
    simp only [List.length_append, next_random]
    omega
  unfold create_temp
  rw [hsplit]
  dsimp only
  rw [create_temp_loop, if_pos hc]

/-- Witness for the amended C3 at a pattern with a 3-byte prefix and a
3-byte suffix against the bound 5. -/
theorem pattern_too_long_minimal_witness :
    5 < (adjusted_pre [] (ascii (['a', 'b', 'c', '*', 'd', 'e', 'f']))
          (ascii (['a', 'b', 'c']))).length + 1 +
        (ascii (['d', 'e', 'f'])).length ∧
    create_temp os0 (fun _ => 0) 5 []
        (ascii (['a', 'b', 'c', '*', 'd', 'e', 'f'])) 64 =
      (.error .PatternTooLong, []) :=
  ⟨by decide,
   pattern_too_long_minimal os0 (fun _ => 0) 5 []
     (ascii (['a', 'b', 'c', '*', 'd', 'e', 'f'])) 64
     (ascii (['a', 'b', 'c'])) (ascii (['d', 'e', 'f']))
     (by decide) (by decide)⟩

/-- C2 counterexample: a concrete CreateTemp run in which exclusive
creation succeeds and the mapping stage fails. The implementation closes
the descriptor and issues os.Remove on the name, but at no point does it
issue the shared-memory unlink trap — the action that removes a name from
the kernel shared-memory namespace per the backend contract — and the
wrapped mapping error carries no object name. -/
theorem create_temp_cleanup_counterexample :
    create_temp os_mmapfail (fun _ => 0) 30 []
        (ascii (['a', 'b', '*', 'c'])) 64 =
      (.error (.MmapWrapped (.MmapOsError 12)),
       [.sys .SHM_OPEN (ascii (['a', 'b', '0', 'c']))
          (O_EXCL ||| O_CREATE ||| O_RDWR) 384,
        .ftruncate 3 (int64_of_uint64 64),
        .mmap_call 3 0 (int64_of_uint64 64)
          (PROT_READ ||| PROT_WRITE) MAP_SHARED,
        .close 3, .remove (ascii (['a', 'b', '0', 'c']))]) ∧
    ((create_temp os_mmapfail (fun _ => 0) 30 []
        (ascii (['a', 'b', '*', 'c'])) 64).2.any is_shm_unlink_trap) =
      false := by
  refine ⟨by decide, by decide⟩

/-- C2 as amended: whenever exclusive creation succeeds and a later stage
fails, create_temp closes the descriptor and issues a best-effort
os.Remove of the just-created name — a filesystem removal, not the
shared-memory unlink trap — before returning the wrapped error; the
truncation-stage error names the object and the target size, while the
mapping-stage error wraps the mapping errno without naming the object. -/
theorem create_temp_cleanup_closes_and_removes (os : OS) (rnd : Nat → Nat)
    (nameMax : Nat) (reqPre pattern : GoStr) (size : Nat)
    (pre0 suf name : GoStr) (fd : Nat)
    (hsplit : split_pattern pattern = .ok (pre0, suf))
    (hname : name = adjusted_pre reqPre pattern pre0 ++ next_random (rnd 0)
      ++ suf)
    (hfd : fd = os.sys_fd .SHM_OPEN name (O_EXCL ||| O_CREATE ||| O_RDWR) 384)
    (hlen : name.length ≤ nameMax)
    (hopen : os.sys_errno .SHM_OPEN name
      (O_EXCL ||| O_CREATE ||| O_RDWR) 384 = 0) :
    (∀ te, os.ftruncate_errno fd (int64_of_uint64 size) = te → te ≠ 0 →
      create_temp os rnd nameMax reqPre pattern size =
        (.error (.TruncateWrapped (.TruncateMsg name size te)),
         [.sys .SHM_OPEN name (O_EXCL ||| O_CREATE ||| O_RDWR) 384,
          .ftruncate fd (int64_of_uint64 size), .close fd, .remove name])) ∧
    (os.ftruncate_errno fd (int64_of_uint64 size) = 0 →
     ∀ me, os.mmap_res fd 0 (int64_of_uint64 size)
        (PROT_READ ||| PROT_WRITE) MAP_SHARED = .error me →
      create_temp os rnd nameMax reqPre pattern size =
        (.error (.MmapWrapped (.MmapOsError me)),
         [.sys .SHM_OPEN name (O_EXCL ||| O_CREATE ||| O_RDWR) 384,
          .ftruncate fd (int64_of_uint64 size),
          .mmap_call fd 0 (int64_of_uint64 size)
            (PROT_READ ||| PROT_WRITE) MAP_SHARED,
          .close fd, .remove name])) := by
  subst hname
  subst hfd
  have hfirst := loop_first_success os rnd nameMax
    (adjusted_pre reqPre pattern pre0) suf hlen hopen 10000
  constructor
  · intro te hte hte0
    unfold create_temp
    rw [hsplit]
    dsimp only
    rw [hfirst]
    dsimp only
    unfold syscall_mmap truncate_or_unlink
    dsimp only
    rw [hte]
    simp [hte0]
  · intro htr me hmm
    unfold create_temp
    rw [hsplit]
    dsimp only
    rw [hfirst]
    dsimp only
    unfold syscall_mmap truncate_or_unlink mmap RDWR
    dsimp only
    rw [htr]
    simp only [beq_self_eq_true, if_true]
    rw [hmm]
    simp

/-- Witness for the amended C2: the truncation stage fails with errno 22
and create_temp closes, removes, and returns the naming error. -/
theorem create_temp_cleanup_witness :
    os_truncfail.ftruncate_errno 3 (int64_of_uint64 64) = 22 ∧
    create_temp os_truncfail (fun _ => 0) 30 []
        (ascii (['a', 'b', '*', 'c'])) 64 =
      (.error (.TruncateWrapped
          (.TruncateMsg (ascii (['a', 'b', '0', 'c'])) 64 22)),
       [.sys .SHM_OPEN (ascii (['a', 'b', '0', 'c']))
          (O_EXCL ||| O_CREATE ||| O_RDWR) 384,
        .ftruncate 3 (int64_of_uint64 64), .close 3,
        .remove (ascii (['a', 'b', '0', 'c']))]) := by
  refine ⟨rfl, ?_⟩
  exact (create_temp_cleanup_closes_and_removes os_truncfail (fun _ => 0) 30
    [] (ascii (['a', 'b', '*', 'c'])) 64 (ascii (['a', 'b']))
    (ascii (['c'])) (ascii (['a', 'b', '0', 'c'])) 3 (by decide) (by decide)
    (by decide) (by decide) (by decide)).1 22 rfl (by decide)

/-- C4: in the creation loop, an already-exists failure (classified by
the errors.Is check, which covers the errnos EEXIST and ENOTEMPTY)
retries with a fresh candidate while counting attempts, and when the
counter passes 10000 — after exactly 10001 recorded exclusive-creation
attempts — the call fails with the createtemp path error on
prefix-wildcard-suffix; any creation error outside that classification
fails at once after a single recorded attempt, returning that error
unchanged. -/
theorem create_temp_retry_bound (os : OS) (rnd : Nat → Nat) (nameMax : Nat)
    (reqPre pattern : GoStr) (size : Nat) (pre0 suf : GoStr)
    (hsplit : split_pattern pattern = .ok (pre0, suf)) :
    ((∀ k, (adjusted_pre reqPre pattern pre0 ++ next_random (rnd k) ++
        suf).length ≤ nameMax) →
     (∀ name flags perm,
        os.sys_errno .SHM_OPEN name flags perm = EEXIST) →
     (create_temp os rnd nameMax reqPre pattern size).1 =
       .error (.CreateTempExhausted
         (adjusted_pre reqPre pattern pre0 ++ [42] ++ suf)) ∧
     (create_temp os rnd nameMax reqPre pattern size).2.length = 10001 ∧
     (create_temp os rnd nameMax reqPre pattern size).2.all
       is_exclusive_create = true) ∧
    (∀ e, e ≠ 0 → e ≠ EEXIST → e ≠ ENOTEMPTY →
     (adjusted_pre reqPre pattern pre0 ++ next_random (rnd 0) ++
       suf).length ≤ nameMax →
     os.sys_errno .SHM_OPEN
       (adjusted_pre reqPre pattern pre0 ++ next_random (rnd 0) ++ suf)
       (O_EXCL ||| O_CREATE ||| O_RDWR) 384 = e →
     create_temp os rnd nameMax reqPre pattern size =
       (.error (.ShmOpenFailed e),
        [.sys .SHM_OPEN
           (adjusted_pre reqPre pattern pre0 ++ next_random (rnd 0) ++ suf)
           (O_EXCL ||| O_CREATE ||| O_RDWR) 384])) := by
  constructor
  · intro hlen hex
    have h := loop_all_exist os rnd nameMax
      (adjusted_pre reqPre pattern pre0) suf hlen hex 10000 0
    unfold create_temp
    rw [hsplit]
    dsimp only
    generalize hlp : create_temp_loop os rnd nameMax
      (adjusted_pre reqPre pattern pre0) suf 0 10000 = p
    rw [hlp] at h
    rcases p with ⟨r, evs⟩
    obtain ⟨h1, h2, h3⟩ := h
    simp only at h1 h2 h3
    subst h1
    exact ⟨rfl, h2, h3⟩
  · intro e he0 heex hnen hlen hop
    have h := loop_first_other_error os rnd nameMax
      (adjusted_pre reqPre pattern pre0) suf e hlen hop he0 heex hnen 10000
    unfold create_temp
    rw [hsplit]
    dsimp only
    rw [h]

/-- Witness for C4 under the all-EEXIST oracle: the run fails with the
path error on the pattern rendered prefix-wildcard-suffix after exactly
10001 recorded exclusive-creation attempts. -/
theorem create_temp_retry_bound_witness :
    (create_temp os_exist (fun _ => 0) 30 []
        (ascii (['a', 'b', '*', 'c'])) 64).1 =
      .error (.CreateTempExhausted (ascii (['a', 'b', '*', 'c']))) ∧
    (create_temp os_exist (fun _ => 0) 30 []
        (ascii (['a', 'b', '*', 'c'])) 64).2.length = 10001 ∧
    (create_temp os_exist (fun _ => 0) 30 []
        (ascii (['a', 'b', '*', 'c'])) 64).2.all is_exclusive_create =
      true := by
  have h := (create_temp_retry_bound os_exist (fun _ => 0) 30 []
    (ascii (['a', 'b', '*', 'c'])) 64 (ascii (['a', 'b'])) (ascii (['c']))
    (by decide)).1 (fun k => by decide) (fun _ _ _ => rfl)
  exact h

/-- C5: Open issues the open trap on exactly the given name with the
read-only flag (which contains no creation bit), then determines the size
with os.Stat; on stat failure it closes the just-opened descriptor before
returning the stat error; on success it maps read-only, shared, at offset
0, for exactly the queried size, returning the composed handle. -/
theorem open_readonly_stat_map (os : OS) (name : GoStr) (se : Nat)
    (sz : Int) (b : List Nat) :
    (Open os name).2.head? = some (.sys .SHM_OPEN name O_RDONLY 0) ∧
    O_RDONLY &&& (O_CREATE ||| O_EXCL) = 0 ∧
    (os.sys_errno .SHM_OPEN name O_RDONLY 0 = 0 →
      (os.stat_size name = .error se →
        Open os name =
          (.error (.StatError se),
           [.sys .SHM_OPEN name O_RDONLY 0, .stat name,
            .close (os.sys_fd .SHM_OPEN name O_RDONLY 0)])) ∧
      (os.stat_size name = .ok sz →
       os.mmap_res (os.sys_fd .SHM_OPEN name O_RDONLY 0) 0
         (int64_of_uint64 (uint64_of_int64 sz)) PROT_READ MAP_SHARED =
           .ok b →
        Open os name =
          (.ok ⟨⟨os.sys_fd .SHM_OPEN name O_RDONLY 0, name⟩, some b, false⟩,
           [.sys .SHM_OPEN name O_RDONLY 0, .stat name,
            .mmap_call (os.sys_fd .SHM_OPEN name O_RDONLY 0) 0
              (int64_of_uint64 (uint64_of_int64 sz)) PROT_READ
              MAP_SHARED]))) := by
  refine ⟨?_, rfl, ?_⟩
  · unfold Open
    have hevs := shm_open_events os name O_RDONLY 0
    generalize hso : shm_open os name O_RDONLY 0 = p
    rw [hso] at hevs
    rcases p with ⟨r, evs⟩
    simp only at hevs
    cases r with
    | error e => simp [hevs]
    | ok ans =>
      rcases hst : os.stat_size name with e2 | sz2
      · simp [hevs]
      · generalize hsr : syscall_mmap os ans (uint64_of_int64 sz2)
          AccessFlags.READ false = q
        rcases q with ⟨r2, evs2⟩
        simp [hevs]
  · intro hop
    constructor
    · intro hstat
      unfold Open
      simp only [shm_open]
      rw [hop]
      simp only [beq_self_eq_true, if_true]
      rw [hstat]
      rfl
    · intro hstat hmm
      unfold Open
      simp only [shm_open]
      rw [hop]
      simp only [beq_self_eq_true, if_true]
      rw [hstat]
      dsimp only
      unfold syscall_mmap mmap
      dsimp only
      rw [hmm]
      rfl

/-- Witness for C5 at the all-success oracle: the success path returns
the composed read-only handle with the stat-queried size. -/
theorem open_readonly_stat_map_witness :
    os0.sys_errno .SHM_OPEN (ascii (['/', 'z'])) O_RDONLY 0 = 0 ∧
    os0.stat_size (ascii (['/', 'z'])) = .ok 64 ∧
    Open os0 (ascii (['/', 'z'])) =
      (.ok ⟨⟨3, ascii (['/', 'z'])⟩, some [], false⟩,
       [.sys .SHM_OPEN (ascii (['/', 'z'])) O_RDONLY 0,
        .stat (ascii (['/', 'z'])),
        .mmap_call 3 0 (int64_of_uint64 (uint64_of_int64 64)) PROT_READ
          MAP_SHARED]) := by
  refine ⟨rfl, rfl, ?_⟩
  exact ((open_readonly_stat_map os0 (ascii (['/', 'z'])) 2 64 []).2.2
    rfl).2 rfl rfl

end Shm
